import Mathlib

/-!
# Verification of the truck-factor knowledge-ownership engine

Shallow embedding of the Python sources (`blame_parser.py`, `compute_factor.py`,
`truck_factor.py`, `mail_mapper.py`, `file_tracking_classes.py`) of the
`truck_factor` repository, together with theorems settling the specification
claims about them.

Modelling conventions:
* Python `dict`s are association lists `List (String × α)` with insertion-order
  semantics: updating an existing key keeps its position, new keys are appended.
* Python `float` arithmetic is modelled exactly: by `ℚ` where only field
  operations and comparisons occur (the truck-factor selectors and the tallies),
  and by `ℝ` where the code uses `**` with a non-integer exponent (the
  knowledge-decay model).
* `datetime` values are modelled as integer Unix seconds; `timedelta.days` is
  floor division by 86400, exactly as Python normalises timedeltas.
* Fallible Python code (exceptions such as `ValueError`, `IndexError`,
  `ZeroDivisionError`) is modelled with `Option`, `none` meaning the exception.
-/

/-! ## Generic string-as-char-list helpers

Lean's `String` in this toolchain wraps a `List Char`; we implement the Python
string operations the sources use (`str.split`, `str.strip`, `int(...)`,
substring containment) directly on `List Char` by structural recursion so that
every definition reduces in the kernel.
-/

/-- Python `s.split(sep)` for a non-empty separator `c :: sep`, left-to-right,
non-overlapping, keeping empty pieces — e.g. `"a<".split("<") == ["a", ""]`.
Structural recursion on a fuel argument so that the definition reduces in the
kernel; every recursive call consumes at least one character of the input and
exactly one unit of fuel, so fuel `= input length` (as supplied by
`splitListOn`) never runs out and the `0` case coincides with the
input-exhausted case. -/
def splitListOnAux (c : Char) (sep : List Char) : ℕ → List Char → List Char → List (List Char)
  | _, [], acc => [acc.reverse]
  | 0, _, acc => [acc.reverse]
  | fuel + 1, x :: xs, acc =>
    if (c :: sep).isPrefixOf (x :: xs) then
      acc.reverse :: splitListOnAux c sep fuel (xs.drop sep.length) []
    else
      splitListOnAux c sep fuel xs (x :: acc)

/-- Python `s.split(sep)`. The sources only ever split on the non-empty
separators `"<"`, `">"`, `" "` and `"author-mail "`; an empty separator is a
`ValueError` in Python and never occurs, so it is given a dummy value here. -/
def splitListOn (sep : List Char) (s : List Char) : List (List Char) :=
  match sep with
  | [] => [s]
  | c :: rest => splitListOnAux c rest s.length s []

/-- Python `s.strip()` / the whitespace-stripping done by `int(...)`. -/
def listTrim (l : List Char) : List Char :=
  ((l.dropWhile Char.isWhitespace).reverse.dropWhile Char.isWhitespace).reverse

/-- Accumulate decimal digits into a natural number. -/
def digitsToNat (l : List Char) : ℕ :=
  l.foldl (fun n c => n * 10 + (c.toNat - 48)) 0

/-- Python `int(s)` on an already-whitespace-stripped string (ASCII model):
an optional sign followed by at least one digit; anything else raises
`ValueError`, modelled as `none`. -/
def parsePyIntCore : List Char → Option ℤ
  | '-' :: ds => if ds ≠ [] ∧ ds.all Char.isDigit then some (-(digitsToNat ds : ℤ)) else none
  | '+' :: ds => if ds ≠ [] ∧ ds.all Char.isDigit then some ((digitsToNat ds : ℤ)) else none
  | ds => if ds ≠ [] ∧ ds.all Char.isDigit then some ((digitsToNat ds : ℤ)) else none

/-- Python `int(s)`: strips surrounding whitespace, then parses. -/
def parsePyInt (l : List Char) : Option ℤ :=
  parsePyIntCore (listTrim l)

/-! ## Python `dict` model -/

/-- Lookup in an insertion-ordered association list (Python `d[k]` /
`k in d`). -/
def dictLookup {α : Type} : List (String × α) → String → Option α
  | [], _ => none
  | (k', v) :: rest, k => if k' = k then some v else dictLookup rest k

/-- Python `d[k] = v`: overwrite in place if the key exists, else append. -/
def dictInsert {α : Type} : List (String × α) → String → α → List (String × α)
  | [], k, v => [(k, v)]
  | (k', v') :: rest, k, v =>
    if k' = k then (k', v) :: rest else (k', v') :: dictInsert rest k v

/-! ## Data model (`file_tracking_classes.py`) -/

/-- `Commit` dataclass: size of the fragment, its date (Unix seconds) and the
file (blame-log path). -/
structure Commit where
  lines : ℤ
  date : ℤ
  file : String
deriving DecidableEq, Repr

/-- `AuthorTotalAuthorship` dataclass. File counts are Python ints; they are
modelled in `ℚ` because the selector divides them. -/
structure AuthorTotalAuthorship where
  author : String
  files_authored : ℚ
  total_files : ℚ
deriving DecidableEq, Repr

/-- `AuthorTotalKnowledge` dataclass. -/
structure AuthorTotalKnowledge where
  author : String
  author_contribution : ℚ
  total_knowledge : ℚ
deriving DecidableEq, Repr

/-! ## Truck-factor selectors (`compute_factor.py`)

`sorted(d.items(), key=lambda item: item[1], reverse=True)` is a stable
descending sort by value; `dict(...)` then preserves that order.  A stable
descending insertion sort implements exactly that on the association-list
model.
-/

/-- Insert one entry into a descending-sorted list, after every entry of
strictly larger or equal value (stability: earlier entries stay first among
equal values). -/
def insertDesc (x : String × ℚ) : List (String × ℚ) → List (String × ℚ)
  | [] => [x]
  | y :: ys => if y.2 ≤ x.2 then x :: y :: ys else y :: insertDesc x ys

/-- Stable descending sort by value: the model of
`sorted(items, key=lambda item: item[1], reverse=True)`. -/
def sortDesc : List (String × ℚ) → List (String × ℚ)
  | [] => []
  | x :: xs => insertDesc x (sortDesc xs)

/-- The `for` loop of `compute_truck_factor_from_file_authorship`: append the
entry, subtract its value from `knowledge_left`, and return early as soon as
`knowledge_left / knowledge < critical_loss` (strictly less). -/
def tf_authorship_loop (knowledge critical_loss : ℚ) :
    ℚ → List (String × ℚ) → List AuthorTotalAuthorship
  | _, [] => []
  | knowledge_left, (author, files_authored) :: rest =>
    ⟨author, files_authored, knowledge⟩ ::
      (if (knowledge_left - files_authored) / knowledge < critical_loss then []
       else tf_authorship_loop knowledge critical_loss (knowledge_left - files_authored) rest)

/-- `compute_truck_factor_from_file_authorship(knowledge, authored_files,
critical_loss)` from `compute_factor.py`. -/
def compute_truck_factor_from_file_authorship (knowledge : ℚ)
    (authored_files : List (String × ℚ)) (critical_loss : ℚ) :
    List AuthorTotalAuthorship :=
  tf_authorship_loop knowledge critical_loss knowledge (sortDesc authored_files)

/-- The `for` loop of `compute_truck_factor_from_knowledge_base`: identical to
the authorship loop except that the early return fires as soon as
`knowledge_left / total_knowledge <= critical_loss` (less-or-equal). -/
def tf_knowledge_loop (total_knowledge critical_loss : ℚ) :
    ℚ → List (String × ℚ) → List AuthorTotalKnowledge
  | _, [] => []
  | knowledge_left, (owner, knowledge) :: rest =>
    ⟨owner, knowledge, total_knowledge⟩ ::
      (if (knowledge_left - knowledge) / total_knowledge ≤ critical_loss then []
       else tf_knowledge_loop total_knowledge critical_loss (knowledge_left - knowledge) rest)

/-- `compute_truck_factor_from_knowledge_base(total_knowledge, knowledge_base,
critical_loss)` from `compute_factor.py`. -/
def compute_truck_factor_from_knowledge_base (total_knowledge : ℚ)
    (knowledge_base : List (String × ℚ)) (critical_loss : ℚ) :
    List AuthorTotalKnowledge :=
  tf_knowledge_loop total_knowledge critical_loss total_knowledge (sortDesc knowledge_base)

/-- Modelled from the spec (§4.5): the generic selector walk.  It walks a
sorted tally, appends each entry, subtracts its value from `remaining`
(initialised to `total` by the caller), and stops inclusively as soon as
`stopAt (remaining / total) critical` holds; the two call sites instantiate
`stopAt` with strictly-less (file-authorship variant) and less-or-equal
(knowledge variant). -/
def specSelectorWalk (stopAt : ℚ → ℚ → Bool) (total critical : ℚ) :
    ℚ → List (String × ℚ) → List (String × ℚ)
  | _, [] => []
  | remaining, (a, v) :: rest =>
    (a, v) ::
      (if stopAt ((remaining - v) / total) critical then []
       else specSelectorWalk stopAt total critical (remaining - v) rest)

/-! ## Blame log parser (`blame_parser.py`, `parse_log`)

Lines are modelled as the file yields them (a trailing newline may or may not
be present; it only affects the stored display names and is stripped by the
`int(...)` model).  `defaultdict(list)` is modelled by `appendCommit`.
-/

/-- `commits[k].append(c)` on a `defaultdict(list)`: append to the existing
bucket in place, or create a new bucket at the end. -/
def appendCommit : List (String × List Commit) → String → Commit → List (String × List Commit)
  | [], k, c => [(k, [c])]
  | (k', cs) :: rest, k, c =>
    if k' = k then (k', cs ++ [c]) :: rest else (k', cs) :: appendCommit rest k c

/-- `re` word character (ASCII model of `[\d\w]`). -/
def isWordChar (c : Char) : Bool :=
  c.isAlphanum || c == '_'

/-- `re.match(r"[\d\w]{40}", line)`: the line starts with 40 word
characters. -/
def isShaLine (l : List Char) : Bool :=
  l.length ≥ 40 && (l.take 40).all isWordChar

/-- Mutable state of the `parse_log` loop. -/
structure ParseState where
  prev : ℤ
  author : String
  authorEmail : String
  timestamp : ℤ
  commits : List (String × List Commit)
  authors : List (String × String)
deriving DecidableEq, Repr

/-- Initial state of `parse_log`: `prev = 0`, empty author name and email,
`timestamp = datetime.utcfromtimestamp(0)`, empty dicts. -/
def parseLogInit : ParseState :=
  ⟨0, "", "", 0, [], []⟩

/-- One iteration of the `parse_log` loop body.  `none` models an uncaught
`ValueError`/`IndexError` from `int(...)` / indexing. -/
def parseLogLine (path : String) (st : ParseState) (line : String) : Option ParseState :=
  let l := line.data
  if isShaLine l then
    -- sha line: flush the previous fragment if its count is positive, then
    -- read the new count from the last space-separated token.
    let st' := if st.prev > 0 then
        { st with commits := appendCommit st.commits st.authorEmail ⟨st.prev, st.timestamp, path⟩ }
      else st
    match parsePyInt ((splitListOn [' '] l).getLastD []) with
    | none => none
    | some n => some { st' with prev := n }
  else if ("author ".data).isPrefixOf l then
    -- author line: record the display name (the rest of the line).
    some { st with author := String.mk (List.intercalate [' '] ((splitListOn [' '] l).drop 1)) }
  else if ("author-time ".data).isPrefixOf l then
    -- author-time line: parse the Unix timestamp from the second token.
    match (splitListOn [' '] l).get? 1 with
    | none => none
    | some tok =>
      match parsePyInt tok with
      | none => none
      | some t => some { st with timestamp := t }
  else if ("author-mail ".data).isPrefixOf l then
    -- author-mail line: take the text between the angle brackets.
    let mail := String.mk ((splitListOn ['>']
      ((splitListOn ['<'] ((splitListOn ("author-mail ".data) l).getLastD [])).getLastD [])).headD [])
    some { st with authorEmail := mail, authors := dictInsert st.authors mail st.author }
  else
    some st

/-- `parse_log(blame_log_path)` over the file's lines: fold the loop body,
then unconditionally flush the final open fragment. -/
def parse_log (path : String) (lines : List String) : Option (List (String × List Commit)) :=
  (lines.foldlM (parseLogLine path) parseLogInit).map fun st =>
    appendCommit st.commits st.authorEmail ⟨st.prev, st.timestamp, path⟩

/-! ## Knowledge decay model (`blame_parser.py`)

`constants.INITIAL_TIMESTAMP` lives in a `constants` module that is not part
of the given sources; modelled from the spec: it is the single fixed reference
instant shared across an entire run, passed here as the explicit parameter
`ref` (Unix seconds).

Python `base ** exponent` at the only call site has an `int` base `1 + t` and
the non-integer `float` exponent `-0.68`.  Its Python semantics: positive base
gives a float power; zero base with a negative exponent raises
`ZeroDivisionError`; a negative base with a non-integer exponent yields a
`complex` number, not a `float`.  Both failure modes are modelled as `none`.
-/

/-- Python `(x : int) ** (y : float)` restricted to the non-integer exponents
the code uses; `none` models `ZeroDivisionError` (zero base, negative
exponent) and a non-`float` (`complex`) result (negative base). -/
noncomputable def pyIntPow (x : ℤ) (y : ℝ) : Option ℝ :=
  if 0 < x then some ((x : ℝ) ^ y)
  else if x = 0 then (if 0 ≤ y then some ((0 : ℝ) ^ y) else none)
  else none

/-- `knowledge_retention_function(t, a, b, beta)`:
`a + (1 - a) * b * (1 + t) ** (-beta)`. -/
noncomputable def knowledge_retention_function (t : ℤ) (a b beta : ℝ) : Option ℝ :=
  (pyIntPow (1 + t) (-beta)).map fun p => a + (1 - a) * b * p

/-- `(constants.INITIAL_TIMESTAMP - commit.date).days`: Python `timedelta`s
are normalised so that `.days` is the floor of the difference in days. -/
def timeDeltaDays (ref date : ℤ) : ℤ :=
  (ref - date).fdiv 86400

/-- `compute_lines_value(commit)`: the decayed knowledge value
`commit.lines * knowledge_retention_function(timeDelta.days, 0.19, 0.78, 0.68)`,
relative to the run's fixed reference instant `ref`. -/
noncomputable def compute_lines_value (ref : ℤ) (commit : Commit) : Option ℝ :=
  (knowledge_retention_function (timeDeltaDays ref commit.date) 0.19 0.78 0.68).map
    fun weightFactor => (commit.lines : ℝ) * weightFactor

/-! ## Mailmap reader (`mail_mapper.py`, `read_mailmap`) -/

/-- The angle-bracketed emails of one mailmap line, in order:
`[s.split(">")[0] for s in contributor.split("<") if ">" in s]`. -/
def extractMails (line : String) : List String :=
  ((splitListOn ['<'] line.data).filter fun s => s.contains '>').map
    fun s => String.mk ((splitListOn ['>'] s).headD [])

/-- One iteration of the `read_mailmap` loop over
`(mail_to_mail, mail_to_name)`.  `none` models an uncaught exception:
`contributor[0]` on an empty string, or `mails[0]` on a line without any
angle-bracketed email (`IndexError`).  The Python check `contributor[0] == ""`
is omitted: a one-character index never equals the empty string. -/
def processMailmapLine (st : List (String × String) × List (String × String))
    (line : String) : Option (List (String × String) × List (String × String)) :=
  match line.data with
  | [] => none
  | c :: _ =>
    if c = '#' then some st
    else if c = '\n' then some st
    else
      let proper_name := String.mk (listTrim ((splitListOn ['<'] line.data).headD []))
      match extractMails line with
      | [] => none
      | proper_mail :: aliases =>
        some (aliases.foldl (fun m a => dictInsert m a proper_mail) st.1,
              dictInsert st.2 proper_mail proper_name)

/-- `read_mailmap(path)` over the file's lines: returns
`(mail_to_mail, mail_to_name)`, or `none` if a line raises. -/
def read_mailmap (lines : List String) :
    Option (List (String × String) × List (String × String)) :=
  lines.foldlM processMailmapLine ([], [])

/-! ## Identity resolution (`blame_parser.py`, `use_mailmap`) -/

/-- `mappedContributions[k] += cs` on a `defaultdict(list)`: extend the
existing bucket in place, or create the bucket (even for an empty `cs`). -/
def extendCommits : List (String × List Commit) → String → List Commit → List (String × List Commit)
  | [], k, cs => [(k, cs)]
  | (k', cs') :: rest, k, cs =>
    if k' = k then (k', cs' ++ cs) :: rest else (k', cs') :: extendCommits rest k cs

/-- `use_mailmap(contributions, mail_to_mail)`: regroup each author's commits
under `mail_to_mail[authorMail]` when that key exists, under `authorMail`
itself otherwise. -/
def use_mailmap (contributions : List (String × List Commit))
    (mail_to_mail : List (String × String)) : List (String × List Commit) :=
  contributions.foldl
    (fun acc p =>
      match dictLookup mail_to_mail p.1 with
      | some mappedMail => extendCommits acc mappedMail p.2
      | none => extendCommits acc p.1 p.2)
    []

/-- The canonical identity a raw email is attributed under: the mapped mail if
the mailmap has the key, the raw email itself otherwise. -/
def resolveMail (mail_to_mail : List (String × String)) (authorMail : String) : String :=
  (dictLookup mail_to_mail authorMail).getD authorMail

/-! ## Ownership aggregation (`truck_factor.py`) -/

/-- The shared update step of both tally helpers: `d[a] = v` if `a` is a new
key, `d[a] = d[a] + v` otherwise. -/
def addVal {α : Type} [Add α] : List (String × α) → String → α → List (String × α)
  | [], a, v => [(a, v)]
  | (a', v') :: rest, a, v =>
    if a' = a then (a', v' + v) :: rest else (a', v') :: addVal rest a v

/-- `map_add_or_increment_knowledge(knowledge_base, file_knowledge_base)`:
fold each `(author, knowledge)` contribution into the knowledge tally. -/
def map_add_or_increment_knowledge (knowledge_base : List (String × ℚ))
    (file_knowledge_base : List (String × ℚ)) : List (String × ℚ) :=
  file_knowledge_base.foldl (fun d p => addVal d p.1 p.2) knowledge_base

/-- `map_add_or_increment_authorship(auhtored_files, author)`: count one more
file for `author`. -/
def map_add_or_increment_authorship (auhtored_files : List (String × ℤ))
    (author : String) : List (String × ℤ) :=
  addVal auhtored_files author 1

/-- One iteration of the `compute_ownership` loop over the two global tallies,
fed one per-file result `(primary author, contribution list)`. -/
def compute_ownership_step (st : List (String × ℤ) × List (String × ℚ))
    (r : String × List (String × ℚ)) : List (String × ℤ) × List (String × ℚ) :=
  (map_add_or_increment_authorship st.1 r.1, map_add_or_increment_knowledge st.2 r.2)

/-- The global knowledge tally built by `compute_ownership` from a stream of
per-file results. -/
def foldKnowledgeTally (results : List (String × List (String × ℚ))) : List (String × ℚ) :=
  results.foldl (fun kb r => map_add_or_increment_knowledge kb r.2) []

/-- The global authorship tally built by `compute_ownership` from a stream of
per-file results. -/
def foldAuthorshipTally (results : List (String × List (String × ℚ))) : List (String × ℤ) :=
  results.foldl (fun af r => map_add_or_increment_authorship af r.1) []

/-! ## Helper lemmas: sorting -/

lemma insertDesc_perm (x : String × ℚ) (l : List (String × ℚ)) :
    (insertDesc x l).Perm (x :: l) := by
  induction l with
  | nil => exact List.Perm.refl _
  | cons y ys ih =>
    by_cases h : y.2 ≤ x.2
    · rw [insertDesc, if_pos h]
    · rw [insertDesc, if_neg h]
      exact (List.Perm.cons y ih).trans (List.Perm.swap x y ys)

lemma sortDesc_perm (l : List (String × ℚ)) : (sortDesc l).Perm l := by
  induction l with
  | nil => exact List.Perm.refl _
  | cons x xs ih =>
    exact (insertDesc_perm x (sortDesc xs)).trans (List.Perm.cons x ih)

/-! ## Helper lemmas: the selector loops against the spec walk -/

lemma tf_authorship_loop_eq_walk (total cl : ℚ) (l : List (String × ℚ)) (rem : ℚ) :
    (tf_authorship_loop total cl rem l).map (fun e => (e.author, e.files_authored)) =
      specSelectorWalk (fun x c => decide (x < c)) total cl rem l := by
  induction l generalizing rem with
  | nil => rfl
  | cons p rest ih =>
    obtain ⟨a, v⟩ := p
    simp only [tf_authorship_loop, specSelectorWalk, List.map_cons]
    by_cases h : (rem - v) / total < cl
    · simp [h]
    · simp [h, ih]

lemma tf_knowledge_loop_eq_walk (total cl : ℚ) (l : List (String × ℚ)) (rem : ℚ) :
    (tf_knowledge_loop total cl rem l).map (fun e => (e.author, e.author_contribution)) =
      specSelectorWalk (fun x c => decide (x ≤ c)) total cl rem l := by
  induction l generalizing rem with
  | nil => rfl
  | cons p rest ih =>
    obtain ⟨a, v⟩ := p
    simp only [tf_knowledge_loop, specSelectorWalk, List.map_cons]
    by_cases h : (rem - v) / total ≤ cl
    · simp [h]
    · simp [h, ih]

/-- **C1.** For every non-empty tally and total > 0, both selector variants
walk the entries sorted descending by value, appending each entry and
subtracting its value from a running remaining initialised to total, stopping
inclusive of the entry just appended — i.e. each equals the spec's generic
selector walk over the descending-sorted tally — where the file-authorship
variant stops as soon as `remaining / total < criticalLoss` (strict) and the
knowledge variant as soon as `remaining / total ≤ criticalLoss` (non-strict);
the strict-vs-non-strict asymmetry is real: on the tally
`{A: 50, B: 50}` with total 100 and critical loss 1/2 the two variants return
different selections. -/
theorem spec_c1_selector_variants :
    (∀ (total : ℚ) (tally : List (String × ℚ)) (cl : ℚ), 0 < total → tally ≠ [] →
      (compute_truck_factor_from_file_authorship total tally cl).map
          (fun e => (e.author, e.files_authored)) =
        specSelectorWalk (fun x c => decide (x < c)) total cl total (sortDesc tally) ∧
      (compute_truck_factor_from_knowledge_base total tally cl).map
          (fun e => (e.author, e.author_contribution)) =
        specSelectorWalk (fun x c => decide (x ≤ c)) total cl total (sortDesc tally)) ∧
    (compute_truck_factor_from_file_authorship 100 [("A", 50), ("B", 50)] (1/2)).length = 2 ∧
    (compute_truck_factor_from_knowledge_base 100 [("A", 50), ("B", 50)] (1/2)).length = 1 := by
  refine ⟨fun total tally cl _ _ => ⟨?_, ?_⟩, ?_, ?_⟩
  · exact tf_authorship_loop_eq_walk total cl (sortDesc tally) total
  · exact tf_knowledge_loop_eq_walk total cl (sortDesc tally) total
  · norm_num [compute_truck_factor_from_file_authorship, sortDesc, insertDesc,
      tf_authorship_loop]
  · norm_num [compute_truck_factor_from_knowledge_base, sortDesc, insertDesc,
      tf_knowledge_loop]

/-- Witness for C1 at the spec's own threshold scenario
`{A: 60, B: 25, C: 15}`, `total = 100`, `criticalLoss = 1/2`. -/
theorem spec_c1_selector_variants_witness :
    (0 : ℚ) < 100 ∧ ([("A", 60), ("B", 25), ("C", 15)] : List (String × ℚ)) ≠ [] ∧
    (compute_truck_factor_from_file_authorship 100 [("A", 60), ("B", 25), ("C", 15)] (1/2)).map
        (fun e => (e.author, e.files_authored)) =
      specSelectorWalk (fun x c => decide (x < c)) 100 (1/2) 100
        (sortDesc [("A", 60), ("B", 25), ("C", 15)]) :=
  ⟨by norm_num, by decide,
    (spec_c1_selector_variants.1 100 [("A", 60), ("B", 25), ("C", 15)] (1/2)
      (by norm_num) (by decide)).1⟩

/-! ## C9: exhaustion without crossing the threshold -/

/-- The walk over a (sorted) tally never triggers the file-authorship
variant's early return: at every entry, after subtracting its value from
`remaining`, `remaining / total < critical_loss` fails. -/
def neverCrossStrict (total critical_loss : ℚ) : ℚ → List (String × ℚ) → Bool
  | _, [] => true
  | remaining, (_, v) :: rest =>
    if (remaining - v) / total < critical_loss then false
    else neverCrossStrict total critical_loss (remaining - v) rest

/-- The walk over a (sorted) tally never triggers the knowledge variant's
early return (`remaining / total ≤ critical_loss` fails at every entry). -/
def neverCrossNonstrict (total critical_loss : ℚ) : ℚ → List (String × ℚ) → Bool
  | _, [] => true
  | remaining, (_, v) :: rest =>
    if (remaining - v) / total ≤ critical_loss then false
    else neverCrossNonstrict total critical_loss (remaining - v) rest

lemma tf_authorship_loop_exhaust (total cl : ℚ) (l : List (String × ℚ)) (rem : ℚ)
    (h : neverCrossStrict total cl rem l = true) :
    tf_authorship_loop total cl rem l =
      l.map fun p => ⟨p.1, p.2, total⟩ := by
  induction l generalizing rem with
  | nil => rfl
  | cons p rest ih =>
    obtain ⟨a, v⟩ := p
    rw [neverCrossStrict] at h
    by_cases hc : (rem - v) / total < cl
    · rw [if_pos hc] at h
      exact absurd h (by simp)
    · rw [if_neg hc] at h
      rw [tf_authorship_loop, if_neg hc, List.map_cons, ih _ h]

lemma tf_knowledge_loop_exhaust (total cl : ℚ) (l : List (String × ℚ)) (rem : ℚ)
    (h : neverCrossNonstrict total cl rem l = true) :
    tf_knowledge_loop total cl rem l =
      l.map fun p => ⟨p.1, p.2, total⟩ := by
  induction l generalizing rem with
  | nil => rfl
  | cons p rest ih =>
    obtain ⟨a, v⟩ := p
    rw [neverCrossNonstrict] at h
    by_cases hc : (rem - v) / total ≤ cl
    · rw [if_pos hc] at h
      exact absurd h (by simp)
    · rw [if_neg hc] at h
      rw [tf_knowledge_loop, if_neg hc, List.map_cons, ih _ h]

/-- **C9.** For every tally and total, if walking the entire descending-sorted
tally never makes `remaining / total` cross the critical-loss threshold under
the variant's own comparator, that selector variant returns the whole sorted
tally (one record per entry, carrying the total), and the returned entries are
a permutation of the tally — one entry per tally key. -/
theorem spec_c9_selector_exhaustion :
    (∀ (total : ℚ) (tally : List (String × ℚ)) (cl : ℚ),
      neverCrossStrict total cl total (sortDesc tally) = true →
      compute_truck_factor_from_file_authorship total tally cl =
        ((sortDesc tally).map fun p => ⟨p.1, p.2, total⟩) ∧
      ((compute_truck_factor_from_file_authorship total tally cl).map
        fun e => (e.author, e.files_authored)).Perm tally) ∧
    (∀ (total : ℚ) (tally : List (String × ℚ)) (cl : ℚ),
      neverCrossNonstrict total cl total (sortDesc tally) = true →
      compute_truck_factor_from_knowledge_base total tally cl =
        ((sortDesc tally).map fun p => ⟨p.1, p.2, total⟩) ∧
      ((compute_truck_factor_from_knowledge_base total tally cl).map
        fun e => (e.author, e.author_contribution)).Perm tally) := by
  constructor
  · intro total tally cl h
    have he := tf_authorship_loop_exhaust total cl (sortDesc tally) total h
    refine ⟨he, ?_⟩
    rw [compute_truck_factor_from_file_authorship, he, List.map_map]
    have hmap : List.map ((fun e => (e.author, e.files_authored)) ∘ fun p =>
        ({ author := p.1, files_authored := p.2, total_files := total } :
          AuthorTotalAuthorship)) (sortDesc tally) = sortDesc tally := by
      simp [Function.comp_def]
    rw [hmap]
    exact sortDesc_perm tally
  · intro total tally cl h
    have he := tf_knowledge_loop_exhaust total cl (sortDesc tally) total h
    refine ⟨he, ?_⟩
    rw [compute_truck_factor_from_knowledge_base, he, List.map_map]
    have hmap : List.map ((fun e => (e.author, e.author_contribution)) ∘ fun p =>
        ({ author := p.1, author_contribution := p.2, total_knowledge := total } :
          AuthorTotalKnowledge)) (sortDesc tally) = sortDesc tally := by
      simp [Function.comp_def]
    rw [hmap]
    exact sortDesc_perm tally

/-- Witness for C9: the tally `{A: 10, B: 10, C: 10}` with total 30 never
crosses `critical_loss = 0` under the strict comparator (and never crosses
`critical_loss = -1` under the non-strict one), so both selectors return all
three entries. -/
theorem spec_c9_selector_exhaustion_witness :
    neverCrossStrict 30 0 30 (sortDesc [("A", 10), ("B", 10), ("C", 10)]) = true ∧
    compute_truck_factor_from_file_authorship 30 [("A", 10), ("B", 10), ("C", 10)] 0 =
      ((sortDesc [("A", 10), ("B", 10), ("C", 10)]).map fun p => ⟨p.1, p.2, 30⟩) ∧
    neverCrossNonstrict 30 (-1) 30 (sortDesc [("A", 10), ("B", 10), ("C", 10)]) = true ∧
    compute_truck_factor_from_knowledge_base 30 [("A", 10), ("B", 10), ("C", 10)] (-1) =
      ((sortDesc [("A", 10), ("B", 10), ("C", 10)]).map fun p => ⟨p.1, p.2, 30⟩) := by
  have h1 : neverCrossStrict 30 0 30 (sortDesc [("A", 10), ("B", 10), ("C", 10)]) = true := by
    norm_num [sortDesc, insertDesc, neverCrossStrict]
  have h2 : neverCrossNonstrict 30 (-1) 30 (sortDesc [("A", 10), ("B", 10), ("C", 10)]) = true := by
    norm_num [sortDesc, insertDesc, neverCrossNonstrict]
  exact ⟨h1, (spec_c9_selector_exhaustion.1 30 [("A", 10), ("B", 10), ("C", 10)] 0 h1).1,
         h2, (spec_c9_selector_exhaustion.2 30 [("A", 10), ("B", 10), ("C", 10)] (-1) h2).1⟩

/-! ## Helper lemmas: tally updates -/

lemma dictLookup_addVal {α : Type} [AddMonoid α] (d : List (String × α)) (a : String)
    (v : α) (k : String) :
    dictLookup (addVal d a v) k =
      if k = a then some ((dictLookup d k).getD 0 + v) else dictLookup d k := by
  induction d with
  | nil =>
    by_cases h : k = a
    · subst h; simp [addVal, dictLookup]
    · simp [addVal, dictLookup, h, Ne.symm h]
  | cons p rest ih =>
    obtain ⟨a', v'⟩ := p
    by_cases ha : a' = a
    · subst ha
      by_cases hk : a' = k
      · subst hk; simp [addVal, dictLookup]
      · simp [addVal, dictLookup, hk, Ne.symm hk]
    · by_cases hk : a' = k
      · subst hk
        simp [addVal, dictLookup, ha, Ne.symm ha]
      · simp [addVal, dictLookup, ha, hk, ih]

/-- **C6.** On the synthetic two-fragment blame log (40-hex header with count
5, Alice's metadata, then a 40-hex header with count 3, Bob's metadata), the
parser produces exactly one fragment of 5 lines at timestamp 0 attributed to
`alice@x.com` — emitted at the second header, one header late — and one final
flushed fragment of 3 lines at timestamp 0 attributed to `bob@x.com`, and
nothing else. -/
theorem spec_c6_parser_two_fragments :
    parse_log "f"
      ["aaaaaaaaaaaaaaaaaaaaaaaaaaaaaaaaaaaaaaaa 1 1 5",
       "author Alice",
       "author-mail <alice@x.com>",
       "author-time 0",
       "bbbbbbbbbbbbbbbbbbbbbbbbbbbbbbbbbbbbbbbb 2 2 3",
       "author Bob",
       "author-mail <bob@x.com>",
       "author-time 0"] =
      some [("alice@x.com", [⟨5, 0, "f"⟩]), ("bob@x.com", [⟨3, 0, "f"⟩])] := by
  decide

/-! ## C2: a per-file result with zero contributions -/

/-- **C2, counterexample.** Processing a per-file result with zero
Contributions does not leave both global tallies unchanged: starting from
empty tallies, the per-file result `("", [])` (the primary author produced by
an empty blame log, with no contributions) leaves the knowledge tally empty
but puts a count of 1 under the empty-string identity into the authorship
tally. -/
theorem spec_c2_counterexample :
    compute_ownership_step ([], []) ("", []) = ([("", 1)], []) ∧
    ([("", 1)] : List (String × ℤ)) ≠ [] := by
  decide

/-- **C2, amended.** Processing a per-file result with zero Contributions
leaves the global knowledge tally unchanged and raises no error, but it does
change the global authorship tally: the count at the result's primary author
increases by one (every other identity's count is unchanged). -/
theorem spec_c2_amended (af : List (String × ℤ)) (kb : List (String × ℚ)) (author : String) :
    (compute_ownership_step (af, kb) (author, [])).2 = kb ∧
    dictLookup (compute_ownership_step (af, kb) (author, [])).1 author =
      some ((dictLookup af author).getD 0 + 1) ∧
    ∀ k, k ≠ author →
      dictLookup (compute_ownership_step (af, kb) (author, [])).1 k = dictLookup af k := by
  refine ⟨rfl, ?_, ?_⟩
  · show dictLookup (addVal af author 1) author = _
    rw [dictLookup_addVal, if_pos rfl]
  · intro k hk
    show dictLookup (addVal af author 1) k = _
    rw [dictLookup_addVal, if_neg hk]

/-- Witness for C2 (amended) at `af = kb = []`, `author = "a"`, `k = "b"`. -/
theorem spec_c2_amended_witness :
    (compute_ownership_step ([], []) ("a", [])).2 = [] ∧
    dictLookup (compute_ownership_step ([], []) ("a", [])).1 "a" =
      some ((dictLookup ([] : List (String × ℤ)) "a").getD 0 + 1) ∧
    ("b" : String) ≠ "a" ∧
    dictLookup (compute_ownership_step ([], []) ("a", [])).1 "b" =
      dictLookup ([] : List (String × ℤ)) "b" :=
  ⟨(spec_c2_amended [] [] "a").1, (spec_c2_amended [] [] "a").2.1, by decide,
    (spec_c2_amended [] [] "a").2.2 "b" (by decide)⟩

/-! ## Helper lemmas: `dictInsert` lookups -/

lemma dictLookup_dictInsert_self {α : Type} (d : List (String × α)) (k : String) (v : α) :
    dictLookup (dictInsert d k v) k = some v := by
  induction d with
  | nil => simp [dictInsert, dictLookup]
  | cons p rest ih =>
    obtain ⟨k', v'⟩ := p
    by_cases h : k' = k
    · simp [dictInsert, dictLookup, h]
    · simp [dictInsert, dictLookup, h, ih]

lemma dictLookup_dictInsert_ne {α : Type} (d : List (String × α)) (k : String) (v : α)
    (j : String) (h : k ≠ j) :
    dictLookup (dictInsert d k v) j = dictLookup d j := by
  induction d with
  | nil => simp [dictInsert, dictLookup, h]
  | cons p rest ih =>
    obtain ⟨k', v'⟩ := p
    by_cases hk : k' = k
    · subst hk
      simp [dictInsert, dictLookup, h, ih]
    · simp only [dictInsert, if_neg hk, dictLookup]
      by_cases hj : k' = j
      · simp [hj]
      · simp [hj, ih]

lemma dictLookup_foldl_dictInsert (v : String) (l : List String)
    (init : List (String × String)) (a : String) :
    dictLookup (l.foldl (fun m x => dictInsert m x v) init) a =
      if a ∈ l then some v else dictLookup init a := by
  induction l generalizing init with
  | nil => simp
  | cons x xs ih =>
    simp only [List.foldl_cons]
    rw [ih]
    by_cases hx : a ∈ xs
    · simp [hx]
    · by_cases hax : a = x
      · subst hax
        simp [hx, dictLookup_dictInsert_self]
      · simp [hx, hax, dictLookup_dictInsert_ne init x v a (Ne.symm hax)]

/-! ## C4: mailmap lines without an angle-bracketed email -/

/-- **C4, counterexample.** A mailmap line that contains no angle-bracketed
email at all (and is not blank or `#`-prefixed) is not skipped: `mails[0]`
raises `IndexError`, so `read_mailmap` fails (returns `none` in the model)
instead of returning mappings that are merely missing that line's entries. -/
theorem spec_c4_counterexample :
    read_mailmap ["Some Name"] = none := by
  decide

/-- **C4, amended.** On a non-comment, non-blank mailmap line: if the line
yields at least one angle-bracketed email, every alias email (the second
angle-bracketed email onwards) is mapped to the first angle-bracketed email of
the line; but if the line yields no angle-bracketed email, processing raises
(`IndexError` on `mails[0]`), so the whole read fails rather than skipping the
line. -/
theorem spec_c4_amended :
    (∀ (line : String) (c : Char) (cs : List Char) (m : String) (rest : List String)
        (mm mn : List (String × String)),
      line.data = c :: cs → c ≠ '#' → c ≠ '\n' →
      extractMails line = m :: rest →
      read_mailmap [line] = some (mm, mn) →
      ∀ a ∈ rest, dictLookup mm a = some m) ∧
    (∀ (st : List (String × String) × List (String × String)) (line : String)
        (c : Char) (cs : List Char),
      line.data = c :: cs → c ≠ '#' → c ≠ '\n' →
      extractMails line = [] →
      processMailmapLine st line = none) := by
  constructor
  · intro line c cs m rest mm mn hdata hc hn hmails hread a ha
    rw [read_mailmap] at hread
    simp only [List.foldlM, processMailmapLine, hdata, hmails, if_neg hc, if_neg hn] at hread
    obtain ⟨hmm, _⟩ := Prod.mk.injEq .. ▸ Option.some.injEq .. ▸ hread
    rw [← hmm, dictLookup_foldl_dictInsert, if_pos ha]
  · intro st line c cs hdata hc hn hmails
    simp [processMailmapLine, hdata, hmails, if_neg hc, if_neg hn]

/-- Witness for C4 (amended): on the well-formed line `"N <a@x> <b@x>"` the
alias `b@x` maps to the first angle-bracketed email `a@x`; on the line
`"bad line"` (no angle-bracketed email) processing fails. -/
theorem spec_c4_amended_witness :
    ("N <a@x> <b@x>" : String).data = 'N' :: (" <a@x> <b@x>" : String).data ∧
    ('N' ≠ '#') ∧ ('N' ≠ '\n') ∧
    extractMails "N <a@x> <b@x>" = "a@x" :: ["b@x"] ∧
    read_mailmap ["N <a@x> <b@x>"] = some ([("b@x", "a@x")], [("a@x", "N")]) ∧
    ("b@x" : String) ∈ ["b@x"] ∧
    dictLookup [("b@x", "a@x")] "b@x" = some "a@x" ∧
    ("bad line" : String).data = 'b' :: ("ad line" : String).data ∧
    extractMails "bad line" = [] ∧
    processMailmapLine ([], []) "bad line" = none :=
  ⟨by decide, by decide, by decide, by decide, by decide, by decide,
    spec_c4_amended.1 "N <a@x> <b@x>" 'N' (" <a@x> <b@x>" : String).data "a@x" ["b@x"]
      [("b@x", "a@x")] [("a@x", "N")] (by decide) (by decide) (by decide) (by decide)
      (by decide) "b@x" (by decide),
    by decide, by decide,
    spec_c4_amended.2 ([], []) "bad line" 'b' ("ad line" : String).data
      (by decide) (by decide) (by decide) (by decide)⟩

/-! ## Helper lemmas: `use_mailmap` -/

/-- All commits of an identity-keyed contributions dict, in bucket order. -/
def joinVals (d : List (String × List Commit)) : List Commit :=
  (d.map Prod.snd).flatten

lemma use_mailmap_step (mm : List (String × String))
    (acc : List (String × List Commit)) (p : String × List Commit) :
    (match dictLookup mm p.1 with
      | some mappedMail => extendCommits acc mappedMail p.2
      | none => extendCommits acc p.1 p.2) =
      extendCommits acc (resolveMail mm p.1) p.2 := by
  cases h : dictLookup mm p.1 <;> simp [resolveMail, h]

lemma joinVals_extendCommits (d : List (String × List Commit)) (k : String)
    (cs : List Commit) :
    (joinVals (extendCommits d k cs)).Perm (joinVals d ++ cs) := by
  induction d with
  | nil => simp [extendCommits, joinVals]
  | cons p rest ih =>
    obtain ⟨k', cs'⟩ := p
    by_cases h : k' = k
    · rw [extendCommits, if_pos h]
      simp only [joinVals, List.map_cons, List.flatten_cons, List.append_assoc]
      exact List.Perm.append_left cs' List.perm_append_comm
    · rw [extendCommits, if_neg h]
      simp only [joinVals, List.map_cons, List.flatten_cons, List.append_assoc]
      exact List.Perm.append_left cs' ih

lemma use_mailmap_go_perm (mm : List (String × String)) (l : List (String × List Commit))
    (acc : List (String × List Commit)) :
    (joinVals (l.foldl
        (fun acc p =>
          match dictLookup mm p.1 with
          | some mappedMail => extendCommits acc mappedMail p.2
          | none => extendCommits acc p.1 p.2)
        acc)).Perm (joinVals acc ++ joinVals l) := by
  induction l generalizing acc with
  | nil => simp [joinVals]
  | cons p rest ih =>
    rw [List.foldl_cons, use_mailmap_step]
    refine ((ih _).trans (List.Perm.append_right _
      (joinVals_extendCommits acc (resolveMail mm p.1) p.2))).trans ?_
    have hj : joinVals (p :: rest) = p.2 ++ joinVals rest := by simp [joinVals]
    rw [List.append_assoc, hj]

/-- **C10.** Identity resolution neither drops nor duplicates commit records:
for every contributions map and mail-to-mail mapping, the combined multiset of
`Commit`s across all output buckets of `use_mailmap` is a permutation of the
combined multiset across all input buckets; in particular the total line count
of the file is invariant under resolution. -/
theorem spec_c10_resolution_preserves_commits (contribs : List (String × List Commit))
    (mm : List (String × String)) :
    (joinVals (use_mailmap contribs mm)).Perm (joinVals contribs) ∧
    ((joinVals (use_mailmap contribs mm)).map Commit.lines).sum =
      ((joinVals contribs).map Commit.lines).sum := by
  have hperm : (joinVals (use_mailmap contribs mm)).Perm (joinVals contribs) := by
    have := use_mailmap_go_perm mm contribs []
    rw [use_mailmap]
    simpa [joinVals] using this
  exact ⟨hperm, (hperm.map Commit.lines).sum_eq⟩

lemma dictLookup_extendCommits (d : List (String × List Commit)) (k : String)
    (cs : List Commit) (j : String) :
    dictLookup (extendCommits d k cs) j =
      if k = j then some ((dictLookup d j).getD [] ++ cs) else dictLookup d j := by
  induction d with
  | nil =>
    by_cases h : k = j
    · subst h; simp [extendCommits, dictLookup]
    · simp [extendCommits, dictLookup, h, Ne.symm h]
  | cons p rest ih =>
    obtain ⟨k', cs'⟩ := p
    by_cases hk : k' = k
    · subst hk
      by_cases hj : k' = j
      · subst hj; simp [extendCommits, dictLookup]
      · simp [extendCommits, dictLookup, hj, Ne.symm hj]
    · by_cases hj : k' = j
      · subst hj
        simp [extendCommits, dictLookup, hk, Ne.symm hk]
      · simp [extendCommits, dictLookup, hk, hj, ih]

lemma use_mailmap_lookup_go (mm : List (String × String))
    (l : List (String × List Commit)) (acc : List (String × List Commit)) (k : String) :
    dictLookup (l.foldl
        (fun acc p =>
          match dictLookup mm p.1 with
          | some mappedMail => extendCommits acc mappedMail p.2
          | none => extendCommits acc p.1 p.2)
        acc) k =
      if (dictLookup acc k).isSome ∨ l.any (fun p => resolveMail mm p.1 == k)
      then some ((dictLookup acc k).getD [] ++
        ((l.filter (fun p => resolveMail mm p.1 == k)).map Prod.snd).flatten)
      else none := by
  induction l generalizing acc with
  | nil =>
    cases h : dictLookup acc k <;> simp [h]
  | cons p rest ih =>
    rw [List.foldl_cons, use_mailmap_step, ih]
    by_cases hr : resolveMail mm p.1 = k
    · have hb : (resolveMail mm p.1 == k) = true := by simp [hr]
      rw [dictLookup_extendCommits, if_pos hr]
      simp [List.filter_cons, List.any_cons, hb, hr, List.append_assoc]
    · have hb : (resolveMail mm p.1 == k) = false := by simp [hr]
      rw [dictLookup_extendCommits, if_neg hr]
      simp only [List.filter_cons, List.any_cons, hb, Bool.false_or, Bool.false_eq_true,
        if_false]

/-- **C7.** Identity resolution is total and applied as a pure function: a raw
email that is not a key of the mail-to-mail mapping resolves to itself, one
that is a key resolves to its mapped canonical email, and `use_mailmap`
attributes every raw email's commits under its resolved identity — absence of
a mapping never raises an error. -/
theorem spec_c7_resolution_total :
    (∀ (mm : List (String × String)) (am : String),
      dictLookup mm am = none → resolveMail mm am = am) ∧
    (∀ (mm : List (String × String)) (am v : String),
      dictLookup mm am = some v → resolveMail mm am = v) ∧
    (∀ (contribs : List (String × List Commit)) (mm : List (String × String))
        (am : String) (cs : List Commit), (am, cs) ∈ contribs →
      ∃ l, dictLookup (use_mailmap contribs mm) (resolveMail mm am) = some l ∧
        cs.Sublist l) := by
  refine ⟨fun mm am h => by simp [resolveMail, h],
          fun mm am v h => by simp [resolveMail, h], ?_⟩
  intro contribs mm am cs hmem
  rw [use_mailmap, use_mailmap_lookup_go]
  have hany : contribs.any (fun p => resolveMail mm p.1 == resolveMail mm am) = true := by
    rw [List.any_eq_true]
    exact ⟨(am, cs), hmem, by simp⟩
  rw [if_pos (Or.inr hany)]
  refine ⟨((contribs.filter
      (fun p => resolveMail mm p.1 == resolveMail mm am)).map Prod.snd).flatten,
    by simp [dictLookup], ?_⟩
  refine List.sublist_flatten_of_mem ?_
  refine List.mem_map.2 ⟨(am, cs), ?_, rfl⟩
  exact List.mem_filter.2 ⟨hmem, by simp⟩

/-- Witness for C7 on the mailmap `{a ↦ b}`: the unlisted email `z` resolves
to itself, the listed email `a` resolves to `b`, and the single commit of `a`
ends up in the `b` bucket of `use_mailmap`. -/
theorem spec_c7_resolution_total_witness :
    dictLookup [("a", "b")] "z" = none ∧ resolveMail [("a", "b")] "z" = "z" ∧
    dictLookup [("a", "b")] "a" = some "b" ∧ resolveMail [("a", "b")] "a" = "b" ∧
    (("a", [(⟨1, 0, "f"⟩ : Commit)]) ∈ [("a", [(⟨1, 0, "f"⟩ : Commit)])]) ∧
    (∃ l, dictLookup (use_mailmap [("a", [(⟨1, 0, "f"⟩ : Commit)])] [("a", "b")])
        (resolveMail [("a", "b")] "a") = some l ∧
      [(⟨1, 0, "f"⟩ : Commit)].Sublist l) :=
  ⟨by decide, spec_c7_resolution_total.1 [("a", "b")] "z" (by decide),
   by decide, spec_c7_resolution_total.2.1 [("a", "b")] "a" "b" (by decide),
   by decide,
   spec_c7_resolution_total.2.2 [("a", [(⟨1, 0, "f"⟩ : Commit)])] [("a", "b")] "a"
     [(⟨1, 0, "f"⟩ : Commit)] (by decide)⟩

/-! ## Helper lemmas: tally folds and permutations (C8) -/

lemma dictLookup_foldl_addVal {α : Type} [AddCommMonoid α] (ps : List (String × α))
    (init : List (String × α)) (k : String) :
    dictLookup (ps.foldl (fun d p => addVal d p.1 p.2) init) k =
      if (dictLookup init k).isSome ∨ ps.any (fun p => p.1 == k)
      then some ((dictLookup init k).getD 0 +
        ((ps.filter (fun p => p.1 == k)).map Prod.snd).sum)
      else none := by
  induction ps generalizing init with
  | nil =>
    cases h : dictLookup init k <;> simp [h]
  | cons p rest ih =>
    rw [List.foldl_cons, ih]
    by_cases ha : p.1 = k
    · have hb : (p.1 == k) = true := by simp [ha]
      have hks : k = p.1 := ha.symm
      rw [dictLookup_addVal, if_pos hks]
      simp [List.filter_cons, List.any_cons, hb, add_assoc]
    · have hb : (p.1 == k) = false := by simp [ha]
      have hks : ¬k = p.1 := fun hh => ha hh.symm
      rw [dictLookup_addVal, if_neg hks]
      simp only [List.filter_cons, List.any_cons, hb, Bool.false_or, Bool.false_eq_true,
        if_false]

lemma perm_flatten {α : Type} {L₁ L₂ : List (List α)} (h : L₁.Perm L₂) :
    L₁.flatten.Perm L₂.flatten := by
  induction h with
  | nil => exact List.Perm.refl _
  | cons x _ ih => exact List.Perm.append_left x ih
  | swap x y l =>
    simp only [List.flatten_cons]
    rw [← List.append_assoc, ← List.append_assoc]
    exact List.Perm.append_right _ List.perm_append_comm
  | trans _ _ ih₁ ih₂ => exact ih₁.trans ih₂

lemma perm_any_eq {α : Type} {l₁ l₂ : List α} (h : l₁.Perm l₂) (f : α → Bool) :
    l₁.any f = l₂.any f := by
  cases h1 : l₁.any f <;> cases h2 : l₂.any f <;> try rfl
  · rw [List.any_eq_false] at h1
    rw [List.any_eq_true] at h2
    obtain ⟨x, hx, hfx⟩ := h2
    exact absurd hfx (by simp [h1 x (h.mem_iff.mpr hx)])
  · rw [List.any_eq_true] at h1
    rw [List.any_eq_false] at h2
    obtain ⟨x, hx, hfx⟩ := h1
    exact absurd hfx (by simp [h2 x (h.mem_iff.mp hx)])

lemma dictLookup_pairsFold_perm {α : Type} [AddCommMonoid α] {ps₁ ps₂ : List (String × α)}
    (h : ps₁.Perm ps₂) (k : String) :
    dictLookup (ps₁.foldl (fun d p => addVal d p.1 p.2) []) k =
      dictLookup (ps₂.foldl (fun d p => addVal d p.1 p.2) []) k := by
  rw [dictLookup_foldl_addVal, dictLookup_foldl_addVal,
    perm_any_eq h (fun p => p.1 == k),
    (List.Perm.map Prod.snd (List.Perm.filter _ h)).sum_eq]

lemma foldKnowledgeTally_eq_pairsFold (rs : List (String × List (String × ℚ)))
    (init : List (String × ℚ)) :
    rs.foldl (fun kb r => map_add_or_increment_knowledge kb r.2) init =
      ((rs.map Prod.snd).flatten).foldl (fun d p => addVal d p.1 p.2) init := by
  induction rs generalizing init with
  | nil => rfl
  | cons r rest ih =>
    rw [List.foldl_cons, List.map_cons, List.flatten_cons, List.foldl_append]
    exact ih _

lemma foldAuthorshipTally_eq_pairsFold (rs : List (String × List (String × ℚ)))
    (init : List (String × ℤ)) :
    rs.foldl (fun af r => map_add_or_increment_authorship af r.1) init =
      (rs.map fun r => (r.1, (1 : ℤ))).foldl (fun d p => addVal d p.1 p.2) init := by
  induction rs generalizing init with
  | nil => rfl
  | cons r rest ih =>
    rw [List.foldl_cons, List.map_cons, List.foldl_cons]
    exact ih _

/-- **C8.** For every fixed finite set of per-file results and every two
permutations of it, folding through the knowledge and authorship tally merges
yields global tallies that map every identity to equal values — exactly equal,
since the embedding models Python floats by exact rationals. -/
theorem spec_c8_aggregator_commutative (rs₁ rs₂ : List (String × List (String × ℚ)))
    (h : rs₁.Perm rs₂) :
    (∀ k, dictLookup (foldKnowledgeTally rs₁) k = dictLookup (foldKnowledgeTally rs₂) k) ∧
    (∀ k, dictLookup (foldAuthorshipTally rs₁) k = dictLookup (foldAuthorshipTally rs₂) k) := by
  constructor
  · intro k
    rw [foldKnowledgeTally, foldKnowledgeTally, foldKnowledgeTally_eq_pairsFold,
      foldKnowledgeTally_eq_pairsFold]
    exact dictLookup_pairsFold_perm (perm_flatten (List.Perm.map Prod.snd h)) k
  · intro k
    rw [foldAuthorshipTally, foldAuthorshipTally, foldAuthorshipTally_eq_pairsFold,
      foldAuthorshipTally_eq_pairsFold]
    exact dictLookup_pairsFold_perm (List.Perm.map (fun r => (r.1, (1 : ℤ))) h) k

/-- Witness for C8 on the two-file stream
`[("A", {A ↦ 2}), ("B", {A ↦ 1})]` and its transposition. -/
theorem spec_c8_aggregator_commutative_witness :
    ([(("A" : String), [(("A" : String), (2 : ℚ))]), ("B", [("A", 1)])].Perm
      [("B", [("A", 1)]), ("A", [("A", 2)])]) ∧
    dictLookup (foldKnowledgeTally [("A", [("A", 2)]), ("B", [("A", 1)])]) "A" =
      dictLookup (foldKnowledgeTally [("B", [("A", 1)]), ("A", [("A", 2)])]) "A" ∧
    dictLookup (foldAuthorshipTally [("A", [("A", 2)]), ("B", [("A", 1)])]) "A" =
      dictLookup (foldAuthorshipTally [("B", [("A", 1)]), ("A", [("A", 2)])]) "A" :=
  ⟨List.Perm.swap _ _ _,
   (spec_c8_aggregator_commutative _ _ (List.Perm.swap _ _ _)).1 "A",
   (spec_c8_aggregator_commutative _ _ (List.Perm.swap _ _ _)).2 "A"⟩

/-! ## Helper lemmas: the decay model on non-negative ages -/

lemma knowledge_retention_eq (t : ℤ) (h : 0 ≤ t) (a b beta : ℝ) :
    knowledge_retention_function t a b beta =
      some (a + (1 - a) * b * (((1 + t : ℤ) : ℝ) ^ (-beta))) := by
  rw [knowledge_retention_function, pyIntPow, if_pos (by omega : (0 : ℤ) < 1 + t)]
  rfl

lemma timeDeltaDays_nonneg (ref date : ℤ) (h : date ≤ ref) :
    0 ≤ timeDeltaDays ref date := by
  rw [timeDeltaDays, Int.fdiv_eq_ediv _ (by norm_num)]
  have : 0 ≤ ref - date := by omega
  positivity

/-! ## C3: the age fed to the decay model is not clamped at zero -/

/-- **C3, counterexample.** The age used by the decay model is the plain floor
`(referenceInstant − fragment.date).days` with no `max(0, ·)` clamp: for a
fragment dated exactly one day after the reference instant the age is `-1`,
not `max(0, -1) = 0`, and `compute_lines_value` fails on it (Python evaluates
`0 ** -0.68`, a `ZeroDivisionError`) instead of being defined. -/
theorem spec_c3_counterexample :
    timeDeltaDays 0 86400 = -1 ∧
    timeDeltaDays 0 86400 ≠ max 0 (timeDeltaDays 0 86400) ∧
    compute_lines_value 0 ⟨5, 86400, "f"⟩ = none := by
  refine ⟨by decide, by decide, ?_⟩
  have ht : timeDeltaDays 0 86400 = -1 := by decide
  simp only [compute_lines_value, ht, knowledge_retention_function, pyIntPow]
  norm_num

/-- **C3, amended.** The age used by the decay model is
`floor((referenceInstant − fragment.date) in days)` with no clamping.  For
every fragment dated at or before the reference instant the age is
non-negative and `decayedValue` is defined; for a fragment dated one day after
the reference instant the age is `-1` and `decayedValue` fails
(`ZeroDivisionError` on `0 ** -0.68`). -/
theorem spec_c3_amended :
    (∀ ref date : ℤ, date ≤ ref → 0 ≤ timeDeltaDays ref date) ∧
    (∀ (ref date L : ℤ) (f : String), date ≤ ref →
      ∃ v : ℝ, compute_lines_value ref ⟨L, date, f⟩ = some v) ∧
    (∀ (ref L : ℤ) (f : String), compute_lines_value ref ⟨L, ref + 86400, f⟩ = none) := by
  refine ⟨timeDeltaDays_nonneg, ?_, ?_⟩
  · intro ref date L f h
    refine ⟨(L : ℝ) * (0.19 + (1 - 0.19) * 0.78 *
      (((1 + timeDeltaDays ref date : ℤ) : ℝ) ^ (-(0.68 : ℝ)))), ?_⟩
    simp only [compute_lines_value]
    rw [knowledge_retention_eq _ (timeDeltaDays_nonneg ref date h)]
    rfl
  · intro ref L f
    have ht : timeDeltaDays ref (ref + 86400) = -1 := by
      rw [timeDeltaDays, show ref - (ref + 86400) = -86400 by ring]
      decide
    simp only [compute_lines_value, ht, knowledge_retention_function, pyIntPow]
    norm_num

/-- Witness for C3 (amended) at `ref = 5`, `date = 3` (defined case) and
`ref = 0` with a fragment dated one day later (failing case). -/
theorem spec_c3_amended_witness :
    ((3 : ℤ) ≤ 5) ∧ 0 ≤ timeDeltaDays 5 3 ∧
    (∃ v : ℝ, compute_lines_value 5 ⟨2, 3, "f"⟩ = some v) ∧
    compute_lines_value 0 ⟨2, 0 + 86400, "f"⟩ = none :=
  ⟨by decide, spec_c3_amended.1 5 3 (by decide),
   spec_c3_amended.2.1 5 3 2 "f" (by decide),
   spec_c3_amended.2.2 0 2 "f"⟩

/-! ## C5: algebraic properties of the decay model -/

/-- **C5.** With the fixed constants `a = 0.19`, `b = 0.78`, `β = 0.68`: for
every line count `L > 0`, `decayedValue = L * retention` is strictly
decreasing as `ageDays` increases over `ageDays ≥ 0`; `retention` lies in
`(a, a + (1−a)·b]`; `0 ≤ decayedValue ≤ L`; and at `ageDays = 0` (a fragment
dated exactly at the reference instant) `decayedValue = L × (a + (1−a)·b)`. -/
theorem spec_c5_decay_properties :
    (∀ (L : ℝ) (t t₁ t₂ : ℤ), 0 < L → 0 ≤ t → 0 ≤ t₁ → t₁ < t₂ →
      ∃ r r₁ r₂ : ℝ,
        knowledge_retention_function t 0.19 0.78 0.68 = some r ∧
        knowledge_retention_function t₁ 0.19 0.78 0.68 = some r₁ ∧
        knowledge_retention_function t₂ 0.19 0.78 0.68 = some r₂ ∧
        L * r₂ < L * r₁ ∧
        0.19 < r ∧ r ≤ 0.19 + (1 - 0.19) * 0.78 ∧
        0 ≤ L * r ∧ L * r ≤ L) ∧
    (∀ (L ref : ℤ) (f : String),
      compute_lines_value ref ⟨L, ref, f⟩ =
        some ((L : ℝ) * (0.19 + (1 - 0.19) * 0.78))) := by
  constructor
  · intro L t t₁ t₂ hL ht ht₁ hlt
    have hc : (0 : ℝ) < (1 - 0.19) * 0.78 := by norm_num
    have hx : ∀ s : ℤ, 0 ≤ s → (0 : ℝ) < ((1 + s : ℤ) : ℝ) := by
      intro s hs
      exact_mod_cast (by omega : (0 : ℤ) < 1 + s)
    have hx1 : ∀ s : ℤ, 0 ≤ s → (1 : ℝ) ≤ ((1 + s : ℤ) : ℝ) := by
      intro s hs
      exact_mod_cast (by omega : (1 : ℤ) ≤ 1 + s)
    refine ⟨_, _, _, knowledge_retention_eq t ht _ _ _,
      knowledge_retention_eq t₁ ht₁ _ _ _,
      knowledge_retention_eq t₂ (by omega) _ _ _, ?_, ?_, ?_, ?_, ?_⟩
    · -- strict decrease of the decayed value
      have hxy : ((1 + t₁ : ℤ) : ℝ) < ((1 + t₂ : ℤ) : ℝ) := by
        exact_mod_cast (by omega : (1 : ℤ) + t₁ < 1 + t₂)
      have hpow := Real.rpow_lt_rpow_of_neg (hx t₁ ht₁) hxy
        (by norm_num : -(0.68 : ℝ) < 0)
      exact mul_lt_mul_of_pos_left
        (add_lt_add_left (mul_lt_mul_of_pos_left hpow hc) 0.19) hL
    · -- retention is strictly above the asymptote a
      exact lt_add_of_pos_right (0.19 : ℝ)
        (mul_pos hc (Real.rpow_pos_of_pos (hx t ht) _))
    · -- retention is at most a + (1-a)*b
      have hp1 : ((1 + t : ℤ) : ℝ) ^ (-(0.68 : ℝ)) ≤ 1 :=
        Real.rpow_le_one_of_one_le_of_nonpos (hx1 t ht) (by norm_num)
      have := mul_le_mul_of_nonneg_left hp1 hc.le
      calc (0.19 : ℝ) + (1 - 0.19) * 0.78 * (((1 + t : ℤ) : ℝ) ^ (-(0.68 : ℝ)))
          ≤ 0.19 + (1 - 0.19) * 0.78 * 1 := by linarith
        _ = 0.19 + (1 - 0.19) * 0.78 := by ring
    · -- decayed value is non-negative
      have hr : (0 : ℝ) < 0.19 + (1 - 0.19) * 0.78 * (((1 + t : ℤ) : ℝ) ^ (-(0.68 : ℝ))) := by
        have := mul_pos hc (Real.rpow_pos_of_pos (hx t ht) (-(0.68 : ℝ)))
        linarith
      exact (mul_pos hL hr).le
    · -- decayed value is at most the raw line count
      have hp1 : ((1 + t : ℤ) : ℝ) ^ (-(0.68 : ℝ)) ≤ 1 :=
        Real.rpow_le_one_of_one_le_of_nonpos (hx1 t ht) (by norm_num)
      have hr1 : (0.19 : ℝ) + (1 - 0.19) * 0.78 * (((1 + t : ℤ) : ℝ) ^ (-(0.68 : ℝ))) ≤ 1 := by
        nlinarith
      calc L * (0.19 + (1 - 0.19) * 0.78 * (((1 + t : ℤ) : ℝ) ^ (-(0.68 : ℝ))))
          ≤ L * 1 := mul_le_mul_of_nonneg_left hr1 hL.le
        _ = L := mul_one L
  · intro L ref f
    have ht : timeDeltaDays ref ref = 0 := by
      rw [timeDeltaDays, sub_self]
      decide
    simp only [compute_lines_value, ht]
    rw [knowledge_retention_eq 0 le_rfl]
    norm_num [Real.one_rpow]

/-- Witness for C5 at `L = 2`, `t = 0`, `t₁ = 0`, `t₂ = 1`. -/
theorem spec_c5_decay_properties_witness :
    (0 : ℝ) < 2 ∧ (0 : ℤ) ≤ 0 ∧ (0 : ℤ) < 1 ∧
    (∃ r r₁ r₂ : ℝ,
      knowledge_retention_function 0 0.19 0.78 0.68 = some r ∧
      knowledge_retention_function 0 0.19 0.78 0.68 = some r₁ ∧
      knowledge_retention_function 1 0.19 0.78 0.68 = some r₂ ∧
      (2 : ℝ) * r₂ < 2 * r₁ ∧
      0.19 < r ∧ r ≤ 0.19 + (1 - 0.19) * 0.78 ∧
      0 ≤ (2 : ℝ) * r ∧ (2 : ℝ) * r ≤ 2) :=
  ⟨by norm_num, by decide, by decide,
   spec_c5_decay_properties.1 2 0 0 1 (by norm_num) (by decide) (by decide) (by decide)⟩
